import Mathlib

/-!
Verification of the `blitiri.com.ar/go/log` logging library (src/log.go)
against its natural-language specification.

Shallow embedding conventions:
- Go strings are modelled as `List Char` (`Str`).
- `fmt.Sprintf(format, a...)` is deterministic in `format` and `a`, so a
  rendered message is passed around as a single `Str` value `msg`.
- Results of effectful calls are inputs to the model: `runtime.Caller`
  yields `Option (Str × Nat)` (`none` when `ok` is false; Go then leaves
  `file`/`line` at their zero values `""`/`0` and the code substitutes
  `"unknown"`), `time.Now().Format(...)` yields the `now : Str` argument
  (which, like the Go layout string, ends in a space), `os.OpenFile` and
  `syslog.New` yield `Except Str Sink`, and a sink write yields
  `Option Str` (the write error, `none` on success).
- A logger's write side effects are returned as the trace of byte strings
  written to its sink.
-/

namespace GoLog

/-- Go strings, modelled as lists of characters. -/
abbrev Str := List Char

/-- Identity of an `io.WriteCloser` sink held by a `Logger`. -/
inductive Sink where
  | stderr : Sink
  | handle : Nat → Sink
  | syslogConn : Nat → Sink
  | multi : List Sink → Sink

/-- Go `Level` type: a signed integer. -/
abbrev Level := Int

/-- Standard logging level `Fatal = Level(-2)`. -/
def Fatal : Level := -2
/-- Standard logging level `Error = Level(-1)`. -/
def Error : Level := -1
/-- Standard logging level `Info = Level(0)`. -/
def Info : Level := 0
/-- Standard logging level `Debug = Level(1)`. -/
def Debug : Level := 1

/-- The `levelToLetter` map of src/log.go (lines 67-72): single-character
markers for the four standard levels, `none` for any other level. -/
def levelToLetter (l : Level) : Option Str :=
  if l = Fatal then some "☠".toList
  else if l = Error then some "E".toList
  else if l = Info then some "_".toList
  else if l = Debug then some ".".toList
  else none

/-- The `Logger` record of src/log.go (lines 75-92). The mutex is not
modelled (all modelled operations are sequential); the sink is identified
by `w : Sink` and its write behaviour is an input to each operation. -/
structure Logger where
  Level : GoLog.Level
  fname : Str
  logTime : Bool
  callerSkip : Nat
  w : Sink

/-- Go `Logger.V` (src/log.go line 162): `return level <= l.Level`. -/
def Logger.V (l : Logger) (level : GoLog.Level) : Bool :=
  decide (level ≤ l.Level)

/-- Left-justified padding to minimum width `w` with spaces, as produced by
the Go format verbs `%-4d` and `%-18s`. -/
def padRight (s : Str) (w : Nat) : Str :=
  s ++ List.replicate (w - s.length) ' '

/-- The last `n` characters of `s` (all of `s` when it is shorter), as in
the Go slice expression `fl[len(fl)-18:]`. -/
def takeLast (s : Str) (n : Nat) : Str :=
  s.drop (s.length - n)

/-- Go `filepath.Base` for Unix paths: empty path gives ".", trailing
slashes are removed, everything up to the final slash is dropped, and a
path of only slashes gives "/". -/
def base (p : Str) : Str :=
  if p = [] then ".".toList
  else
    let q := (p.reverse.dropWhile (fun c => c = '/')).reverse
    let r := (q.reverse.takeWhile (fun c => c ≠ '/')).reverse
    if r = [] then "/".toList else r

/-- Go `strings.HasSuffix(msg, "\n")`: true iff the last character is a
newline. -/
def hasSuffixNL (s : Str) : Bool :=
  s.getLast? = some '\n'

/-- The string `fmt.Sprintf("%s:%-4d", filepath.Base(file), line)` of
src/log.go line 182. -/
def rawFileLine (file : Str) (line : Nat) : Str :=
  base file ++ ":".toList ++ padRight (Nat.repr line).toList 4

/-- The caller prefix built by src/log.go lines 178-186 from the result of
`runtime.Caller` (`none` models `ok = false`, in which case Go leaves
`line` at its zero value `0` and the code substitutes file `"unknown"`):
`basename:line`, truncated to its last 18 characters when longer,
otherwise padded to 18 characters, followed by one space. -/
def callerField (caller : Option (Str × Nat)) : Str :=
  let fileLine := match caller with
    | some fl => fl
    | none => ("unknown".toList, 0)
  let fl := rawFileLine fileLine.1 fileLine.2
  let fl := if fl.length > 18 then takeLast fl 18 else fl
  padRight fl 18 ++ " ".toList

/-- The level marker of src/log.go lines 189-192: the `levelToLetter`
entry, falling back to `strconv.Itoa(int(level))`. -/
def letterOf (level : GoLog.Level) : Str :=
  match levelToLetter level with
  | some s => s
  | none => (toString level).toList

/-- Go `Logger.Log` (src/log.go lines 169-208). `msg0` is the rendered
`fmt.Sprintf(format, a...)`; `caller` the `runtime.Caller` result reached
through `1 + l.callerSkip + skip` frames; `now` the formatted current
time (layout "2006-01-02 15:04:05.000000 ", trailing space included);
`writeErr` the error the sink write returns. The result is the pair of
the returned error and the trace of byte strings written to the sink. -/
def Logger.Log (l : Logger) (level : GoLog.Level) (msg0 : Str)
    (caller : Option (Str × Nat)) (now : Str) (writeErr : Option Str) :
    Option Str × List Str :=
  if l.V level = false then (none, [])
  else
    let msg := msg0
    let msg := callerField caller ++ msg
    let msg := letterOf level ++ " ".toList ++ msg
    let msg := if l.logTime then now ++ msg else msg
    let msg := if hasSuffixNL msg then msg else msg ++ "\n".toList
    (writeErr, [msg])

/-- Go `New` (src/log.go lines 95-102): wraps a sink, caller skip 0,
level Info, time on, not file-backed. -/
def New (w : Sink) : Logger :=
  { w := w, callerSkip := 0, Level := Info, logTime := true, fname := [] }

/-- Go `NewFile` (src/log.go lines 105-115). `openRes` is the outcome of
`os.OpenFile(path, O_CREATE|O_APPEND|O_WRONLY, 0644)`. On success the
logger wraps the opened handle, turns the time prefix on, and stores
`path` in `fname`. -/
def NewFile (path : Str) (openRes : Except Str Sink) : Except Str Logger :=
  match openRes with
  | .error e => .error e
  | .ok f => .ok { New f with logTime := true, fname := path }

/-- Go `NewSyslog` (src/log.go lines 119-128). `connRes` is the outcome of
`syslog.New(priority, tag)`. On success the logger wraps the syslog
connection and turns the time prefix off. -/
def NewSyslog (connRes : Except Str Sink) : Except Str Logger :=
  match connRes with
  | .error e => .error e
  | .ok w => .ok { New w with logTime := false }

/-- Go `Logger.Reopen` (src/log.go lines 141-156). `openRes` is the
outcome of `os.OpenFile(l.fname, O_CREATE|O_APPEND|O_WRONLY, 0644)`.
The result is (returned error, logger state afterwards, whether
`l.Close()` was called on the prior sink). The code returns early when
`fname` is empty, then opens the new file, and only on a successful open
closes the prior sink and swaps in the new one. -/
def Logger.Reopen (l : Logger) (openRes : Except Str Sink) :
    Option Str × Logger × Bool :=
  if l.fname = [] then (none, l, false)
  else
    match openRes with
    | .error e => (some e, l, false)
    | .ok f => (none, { l with w := f }, true)

/-- Go `Logger.Errorf` (src/log.go lines 222-225): logs `msg` (the
rendering of `format`+`args`) at the Error level, discarding `Log`'s
returned error, and returns `fmt.Errorf(format, a...)` — an error value
whose text is that same rendering. The result is (returned error value,
trace of byte strings written to the sink). -/
def Logger.Errorf (l : Logger) (msg : Str) (caller : Option (Str × Nat))
    (now : Str) (writeErr : Option Str) : Option Str × List Str :=
  let r := l.Log Error msg caller now writeErr
  (some msg, r.2)

/-- Go `mwc.Close` (src/log.go lines 316-323), instrumented with a trace.
Each wrapped sink is represented by the error its `Close` returns
(`none` for success). The result is (for each wrapped sink, whether
`Close` was called on it, in order; the error `mwc.Close` returns). The
loop returns as soon as a `Close` fails. -/
def mwcClose : List (Option Str) → List Bool × Option Str
  | [] => ([], none)
  | r :: rest =>
    match r with
    | some e => (true :: rest.map (fun _ => false), some e)
    | none =>
      let p := mwcClose rest
      (true :: p.1, p.2)

/-- Whether a sink is the process standard error stream, as tested by the
Go comparison `Default.w != os.Stderr`. -/
def Sink.isStderr : Sink → Bool
  | .stderr => true
  | _ => false

/-- The command-line flag values consumed by `Init` (src/log.go
lines 40-54): -v, -logfile, -logtosyslog, -logtime, -alsologtostderr. -/
structure Flags where
  vLevel : Int
  logFile : Str
  logToSyslog : Str
  logTime : Bool
  alsoLogToStderr : Bool

/-- Go `Init` (src/log.go lines 244-268). `old` is the `Default` logger
before the call; `connRes` and `openRes` are the outcomes `syslog.New`
and `os.OpenFile` would produce for the configured tag and path. A Go
`panic(err)` is modelled as `.error err`; a normal return yields the new
`Default` logger. -/
def Init (fl : Flags) (old : Logger) (connRes openRes : Except Str Sink) :
    Except Str Logger :=
  let picked : Except Str (Logger × Bool) :=
    if fl.logToSyslog ≠ [] then
      match NewSyslog connRes with
      | .error e => .error e
      | .ok d => .ok (d, fl.logTime)
    else if fl.logFile ≠ [] then
      match NewFile fl.logFile openRes with
      | .error e => .error e
      | .ok d => .ok (d, true)
    else
      .ok (old, fl.logTime)
  match picked with
  | .error e => .error e
  | .ok (d, lt) =>
    let d :=
      if fl.alsoLogToStderr && !d.w.isStderr then
        { d with w := Sink.multi [d.w, Sink.stderr] }
      else d
    .ok { d with callerSkip := 1, Level := fl.vLevel, logTime := lt }

/-- The assembled line as the specification words it (with the amendment
that only the time field is toggleable): time field iff `logTime`, then
the level marker, a space, the 18-character caller field with its
trailing space, then the message, newline-terminated. -/
def specLine (logTime : Bool) (now : Str) (level : GoLog.Level)
    (caller : Option (Str × Nat)) (msg : Str) : Str :=
  let line := (if logTime then now else []) ++
    letterOf level ++ " ".toList ++ callerField caller ++ msg
  if hasSuffixNL line then line else line ++ "\n".toList

/-- The assembled message of `Logger.Log` just before the trailing-newline
step (src/log.go lines 174-198). -/
def preLine (l : Logger) (level : GoLog.Level) (msg : Str)
    (caller : Option (Str × Nat)) (now : Str) : Str :=
  (if l.logTime then now else []) ++
    letterOf level ++ " ".toList ++ callerField caller ++ msg

/-- Go `filepath.IsAbs` for Unix paths: true iff the path starts with a
slash. -/
def isAbs (p : Str) : Bool :=
  match p with
  | '/' :: _ => true
  | _ => false

/-- A string ends in exactly one newline: its last character is a newline
and the character before it (when present) is not. -/
def endsInExactlyOneNewline (s : Str) : Bool :=
  hasSuffixNL s && !(hasSuffixNL s.dropLast)

/-- A concrete logger with level Info and the time prefix off, writing to
standard error. -/
def L0 : Logger :=
  { Level := Info, fname := [], logTime := false, callerSkip := 0, w := Sink.stderr }

/-- A concrete file-backed logger, as built by a successful
`NewFile "/tmp/x.log"`. -/
def Lfile : Logger :=
  { Level := Info, fname := "/tmp/x.log".toList, logTime := true,
    callerSkip := 0, w := Sink.handle 7 }

theorem padRight_length (s : Str) (w : Nat) :
    (padRight s w).length = max s.length w := by
  simp [padRight]
  omega

theorem takeLast_length (s : Str) (n : Nat) :
    (takeLast s n).length = min n s.length := by
  simp [takeLast]
  omega

theorem getLast?_cons_isSome (c : Char) (cs : Str) :
    ((c :: cs).getLast?).isSome = true := by
  induction cs generalizing c with
  | nil => rfl
  | cons d ds ih => rw [List.getLast?_cons_cons]; exact ih d

theorem getLast?_append_of_ne_nil (a b : Str) (h : b ≠ []) :
    (a ++ b).getLast? = b.getLast? := by
  cases b with
  | nil => exact absurd rfl h
  | cons c cs =>
    rw [List.getLast?_append]
    obtain ⟨x, hx⟩ := Option.isSome_iff_exists.mp (getLast?_cons_isSome c cs)
    rw [hx, Option.or_some]

theorem callerField_getLast (caller : Option (Str × Nat)) :
    (callerField caller).getLast? = some ' ' := by
  cases caller <;>
    · simp only [callerField]
      rw [getLast?_append_of_ne_nil _ _ (by decide)]
      rfl

theorem hasSuffixNL_preLine (l : Logger) (level : GoLog.Level) (msg : Str)
    (caller : Option (Str × Nat)) (now : Str) :
    hasSuffixNL (preLine l level msg caller now) = hasSuffixNL msg := by
  cases msg with
  | nil =>
    have hc := callerField_getLast caller
    simp only [hasSuffixNL, preLine, List.append_nil, List.getLast?_append, hc,
      Option.or_some, List.getLast?_nil]
    decide
  | cons c cs =>
    obtain ⟨x, hx⟩ := Option.isSome_iff_exists.mp (getLast?_cons_isSome c cs)
    simp only [hasSuffixNL, preLine, List.getLast?_append, hx, Option.or_some]

theorem log_of_not_v (l : Logger) (level : GoLog.Level) (msg : Str)
    (caller : Option (Str × Nat)) (now : Str) (werr : Option Str)
    (h : l.V level = false) :
    l.Log level msg caller now werr = (none, []) := by
  simp [Logger.Log, h]

theorem log_of_v (l : Logger) (level : GoLog.Level) (msg : Str)
    (caller : Option (Str × Nat)) (now : Str) (werr : Option Str)
    (h : l.V level = true) :
    l.Log level msg caller now werr =
      (werr, [specLine l.logTime now level caller msg]) := by
  cases hl : l.logTime <;>
    simp [Logger.Log, h, specLine, hl, List.append_assoc]

theorem specLine_eq_preLine (l : Logger) (level : GoLog.Level) (msg : Str)
    (caller : Option (Str × Nat)) (now : Str) :
    specLine l.logTime now level caller msg =
      if hasSuffixNL msg then preLine l level msg caller now
      else preLine l level msg caller now ++ "\n".toList := by
  rw [specLine, ← preLine, hasSuffixNL_preLine]

theorem mwcClose_all_ok (rs : List (Option Str)) (h : ∀ x ∈ rs, x = none) :
    mwcClose rs = (rs.map (fun _ => true), none) := by
  induction rs with
  | nil => rfl
  | cons r rest ih =>
    have hr : r = none := h r (List.mem_cons_self r rest)
    subst hr
    simp [mwcClose, ih (fun x hx => h x (List.mem_cons_of_mem _ hx))]

/-- C3: for every level L and every logger floor F, `V(L)` returns true if
and only if L ≤ F, under the ordering Fatal(-2) < Error(-1) < Info(0) <
Debug(1); in particular, for any floor among the four standard levels,
`V(Fatal)` is true. -/
theorem c3_v_iff_le :
    (∀ (l : Logger) (level : GoLog.Level), l.V level = true ↔ level ≤ l.Level) ∧
    (Fatal < Error ∧ Error < Info ∧ Info < Debug) ∧
    (∀ l : Logger,
      l.Level = Fatal ∨ l.Level = Error ∨ l.Level = Info ∨ l.Level = Debug →
      l.V Fatal = true) := by
  refine ⟨fun l level => ?_, by decide, fun l h => ?_⟩
  · simp [Logger.V]
  · rcases h with h | h | h | h <;> simp only [Logger.V, h] <;> decide

/-- Witness for c3_v_iff_le at a logger with the Info floor. -/
theorem c3_v_iff_le_witness :
    (L0.V Debug = true ↔ Debug ≤ L0.Level) ∧ L0.V Fatal = true :=
  ⟨c3_v_iff_le.1 L0 Debug, c3_v_iff_le.2.2 L0 (Or.inr (Or.inr (Or.inl rfl)))⟩

/-- C7: for every level with `V(level)` false, `Log` returns a nil error
and writes zero bytes to the sink. -/
theorem c7_fast_reject (l : Logger) (level : GoLog.Level) (msg : Str)
    (caller : Option (Str × Nat)) (now : Str) (werr : Option Str)
    (h : l.V level = false) :
    l.Log level msg caller now werr = (none, []) :=
  log_of_not_v l level msg caller now werr h

/-- Witness for c7_fast_reject: a Debug message against an Info floor. -/
theorem c7_fast_reject_witness :
    L0.Log Debug "hi".toList (some ("f.go".toList, 10)) [] none = (none, []) :=
  c7_fast_reject L0 Debug "hi".toList (some ("f.go".toList, 10)) [] none (by decide)

/-- C5 counterexample: `NewFile "rel.log"` stores the relative path
verbatim in `fname`; the stored path is not absolute. -/
theorem c5_relative_path_counterexample :
    (NewFile "rel.log".toList (Except.ok (Sink.handle 3))).toOption.map Logger.fname =
      some "rel.log".toList ∧
    isAbs "rel.log".toList = false := by
  decide

/-- C5 (amended): `NewFile(path)` records the backing path for reopen
support, storing it exactly as supplied, with no resolution to an
absolute form at construction time. -/
theorem c5_newfile_stores_path_verbatim (path : Str) (f : Sink) :
    (NewFile path (Except.ok f)).toOption.map Logger.fname = some path := rfl

/-- C4 counterexample: with two wrapped sinks where the first Close
fails, the fan-out Close returns that error but never calls Close on the
second sink. -/
theorem c4_close_counterexample :
    mwcClose [some "e".toList, none] = ([true, false], some "e".toList) ∧
    (mwcClose [some "e".toList, none]).1 ≠ [true, true] := by
  decide

/-- C4 (amended): closing a fan-out sink closes each wrapped sink in
order and returns the first close error encountered, but stops there:
the sinks after the first failing one are not closed. -/
theorem c4_close_first_error_stops :
    (∀ rs : List (Option Str), (∀ x ∈ rs, x = none) →
      mwcClose rs = (rs.map (fun _ => true), none)) ∧
    (∀ (pre : List (Option Str)) (e : Str) (post : List (Option Str)),
      (∀ x ∈ pre, x = none) →
      mwcClose (pre ++ some e :: post) =
        (pre.map (fun _ => true) ++ true :: post.map (fun _ => false), some e)) := by
  refine ⟨mwcClose_all_ok, fun pre e post h => ?_⟩
  induction pre with
  | nil => simp [mwcClose]
  | cons r rest ih =>
    have hr : r = none := h r (List.mem_cons_self r rest)
    subst hr
    simp [mwcClose, ih (fun x hx => h x (List.mem_cons_of_mem _ hx))]

/-- Witness for c4_close_first_error_stops: three wrapped sinks, the
middle close failing. -/
theorem c4_close_first_error_stops_witness :
    mwcClose [none, some "x".toList, none] =
      ([true, true, false], some "x".toList) := by
  have h := c4_close_first_error_stops.2 [none] "x".toList [none] (by simp)
  simpa using h

theorem padRight_of_le_length (s : Str) (w : Nat) (h : w ≤ s.length) :
    padRight s w = s := by
  simp [padRight, Nat.sub_eq_zero_of_le h]

theorem padRight18_space_length (s : Str) (h : s.length ≤ 18) :
    (padRight s 18 ++ " ".toList).length = 19 := by
  rw [List.length_append, padRight_length]
  have h1 : (" ".toList).length = 1 := rfl
  rw [h1]
  omega

theorem callerField_length (caller : Option (Str × Nat)) :
    (callerField caller).length = 19 := by
  cases caller <;>
    · simp only [callerField]
      apply padRight18_space_length
      split
      · rw [takeLast_length]; omega
      · omega

theorem hasSuffixNL_append_nl (s : Str) :
    hasSuffixNL (s ++ "\n".toList) = true := by
  simp only [hasSuffixNL, getLast?_append_of_ne_nil s ("\n".toList) (by decide)]
  decide

/-- C1 counterexample: with every available format toggle off (logTime,
the only one, is false) the emitted line still carries the level marker
and the caller field, so it is not the bare message plus newline. -/
theorem c1_no_metadata_counterexample :
    (L0.Log Info "hello".toList (some ("f.go".toList, 10)) [] none).2 ≠
      ["hello\n".toList] ∧
    (L0.Log Info "hello".toList (some ("f.go".toList, 10)) [] none).2 =
      ["_ f.go:10            hello\n".toList] := by
  decide

/-- C1 (amended): the Logger has a single format toggle, logTime; the
level marker and the caller field are always prepended. The assembled
line is [time ]level SP caller SP message with a trailing newline, where
the time field is present iff logTime is on and the level marker and the
caller field are present in every line. -/
theorem c1_line_format (l : Logger) (level : GoLog.Level) (msg : Str)
    (caller : Option (Str × Nat)) (now : Str) (werr : Option Str)
    (h : l.V level = true) :
    l.Log level msg caller now werr =
      (werr, [specLine l.logTime now level caller msg]) :=
  log_of_v l level msg caller now werr h

/-- Witness for c1_line_format at an Info-level message with logTime
off. -/
theorem c1_line_format_witness :
    L0.Log Info "hello".toList (some ("f.go".toList, 10)) [] none =
      (none, ["_ f.go:10            hello\n".toList]) := by
  rw [c1_line_format L0 Info "hello".toList (some ("f.go".toList, 10)) [] none
    (by decide)]
  decide

/-- C2 counterexample: a failed reopen on a file-backed logger returns
the open error while the prior sink has not been closed and is still
installed. -/
theorem c2_reopen_failure_counterexample :
    Lfile.Reopen (Except.error "open failed".toList) =
      (some "open failed".toList, Lfile, false) ∧
    (Lfile.Reopen (Except.error "open failed".toList)).2.2 ≠ true :=
  ⟨rfl, by decide⟩

/-- C2 (amended): for a file-backed Logger, Reopen opens the replacement
file before closing the current sink; when the open fails, the error is
returned to the caller, the prior sink has not been closed, and the
Logger still holds its previous, usable sink. -/
theorem c2_reopen_open_before_close (l : Logger) (e : Str)
    (h : l.fname ≠ []) :
    l.Reopen (Except.error e) = (some e, l, false) := by
  simp [Logger.Reopen, h]

/-- Witness for c2_reopen_open_before_close on a concrete file-backed
logger. -/
theorem c2_reopen_open_before_close_witness :
    Lfile.Reopen (Except.error "e".toList) = (some "e".toList, Lfile, false) :=
  c2_reopen_open_before_close Lfile "e".toList (by decide)

/-- C6: the caller field is basename:line at a fixed width of 18
characters (padded when shorter, keeping only the last 18 characters
when longer) followed by a single space; when caller resolution fails
the literal file name "unknown" is substituted. -/
theorem c6_caller_field_format :
    (∀ caller : Option (Str × Nat),
      (callerField caller).length = 19 ∧
      (callerField caller).getLast? = some ' ') ∧
    (∀ (file : Str) (line : Nat),
      (18 < (rawFileLine file line).length →
        callerField (some (file, line)) =
          takeLast (rawFileLine file line) 18 ++ " ".toList) ∧
      ((rawFileLine file line).length ≤ 18 →
        callerField (some (file, line)) =
          padRight (rawFileLine file line) 18 ++ " ".toList)) ∧
    callerField none = callerField (some ("unknown".toList, 0)) := by
  refine ⟨fun caller => ⟨callerField_length caller, callerField_getLast caller⟩,
    fun file line => ⟨fun h => ?_, fun h => ?_⟩, rfl⟩
  · simp only [callerField]
    rw [if_pos h, padRight_of_le_length]
    rw [takeLast_length]
    omega
  · simp only [callerField]
    rw [if_neg (by omega)]

/-- Witness for c6_caller_field_format at file "f.go", line 10. -/
theorem c6_caller_field_format_witness :
    (callerField (some ("f.go".toList, 10))).length = 19 ∧
    callerField (some ("f.go".toList, 10)) =
      padRight (rawFileLine "f.go".toList 10) 18 ++ " ".toList :=
  ⟨(c6_caller_field_format.1 (some ("f.go".toList, 10))).1,
   (c6_caller_field_format.2.1 "f.go".toList 10).2 (by decide)⟩

/-- C8: Errorf always returns a non-nil error whose text is the rendered
message, independent of level filtering and of the write outcome; when
the floor permits the Error level it also writes one Error-level line
carrying that message, and otherwise writes nothing. -/
theorem c8_errorf_returns_error (l : Logger) (msg : Str)
    (caller : Option (Str × Nat)) (now : Str) (werr : Option Str) :
    (l.Errorf msg caller now werr).1 = some msg ∧
    (l.V Error = true →
      (l.Errorf msg caller now werr).2 =
        [specLine l.logTime now Error caller msg]) ∧
    (l.V Error = false → (l.Errorf msg caller now werr).2 = []) := by
  refine ⟨rfl, fun h => ?_, fun h => ?_⟩
  · show (l.Log Error msg caller now werr).2 = _
    rw [log_of_v l Error msg caller now werr h]
  · show (l.Log Error msg caller now werr).2 = _
    rw [log_of_not_v l Error msg caller now werr h]

/-- Witness for c8_errorf_returns_error: Errorf("x %d", 1) against the
Info floor. -/
theorem c8_errorf_returns_error_witness :
    (L0.Errorf "x 1".toList (some ("f.go".toList, 10)) [] none).1 =
      some "x 1".toList ∧
    (L0.Errorf "x 1".toList (some ("f.go".toList, 10)) [] none).2 =
      ["E f.go:10            x 1\n".toList] := by
  refine ⟨(c8_errorf_returns_error L0 "x 1".toList
    (some ("f.go".toList, 10)) [] none).1, ?_⟩
  rw [(c8_errorf_returns_error L0 "x 1".toList
    (some ("f.go".toList, 10)) [] none).2.1 (by decide)]
  decide

/-- C9 counterexample: when the caller-supplied message itself ends in
two newlines, the emitted line ends in two newlines, not exactly one. -/
theorem c9_double_newline_counterexample :
    (L0.Log Info "a\n\n".toList (some ("f.go".toList, 1)) [] none).2 =
      ["_ f.go:1             a\n\n".toList] ∧
    endsInExactlyOneNewline "_ f.go:1             a\n\n".toList = false := by
  decide

/-- C9 (amended): every emitted line ends in a newline: one is appended
exactly when the assembled message — equivalently, the caller-supplied
message — does not already end in one, and an existing trailing newline
in the caller-supplied message is never duplicated. -/
theorem c9_trailing_newline (l : Logger) (level : GoLog.Level) (msg : Str)
    (caller : Option (Str × Nat)) (now : Str) (werr : Option Str)
    (h : l.V level = true) :
    (l.Log level msg caller now werr).2 =
      [if hasSuffixNL msg then preLine l level msg caller now
       else preLine l level msg caller now ++ "\n".toList] ∧
    ∀ s ∈ (l.Log level msg caller now werr).2, hasSuffixNL s = true := by
  have h1 : (l.Log level msg caller now werr).2 =
      [specLine l.logTime now level caller msg] := by
    rw [log_of_v l level msg caller now werr h]
  rw [h1, specLine_eq_preLine]
  refine ⟨rfl, fun s hs => ?_⟩
  rw [List.mem_singleton] at hs
  subst hs
  split
  · rw [hasSuffixNL_preLine]
    assumption
  · exact hasSuffixNL_append_nl _

/-- Witness for c9_trailing_newline on a message that already ends in a
newline: no second newline is appended. -/
theorem c9_trailing_newline_witness :
    (L0.Log Info "m\n".toList (some ("f.go".toList, 1)) [] none).2 =
      [preLine L0 Info "m\n".toList (some ("f.go".toList, 1)) []] ∧
    ∀ s ∈ (L0.Log Info "m\n".toList (some ("f.go".toList, 1)) [] none).2,
      hasSuffixNL s = true := by
  have h := c9_trailing_newline L0 Info "m\n".toList
    (some ("f.go".toList, 1)) [] none (by decide)
  refine ⟨?_, h.2⟩
  rw [h.1]
  decide

/-- Concrete flags configuring a syslog tag. -/
def FLsys : Flags :=
  { vLevel := 0, logFile := [], logToSyslog := "tag".toList,
    logTime := false, alsoLogToStderr := false }

/-- Concrete flags configuring a log file path. -/
def FLfile : Flags :=
  { vLevel := 1, logFile := "/var/log/app.log".toList, logToSyslog := [],
    logTime := false, alsoLogToStderr := false }

/-- C10: when the configuration gives a non-empty syslog tag or file path
and opening that sink fails, Init panics (modelled as an error outcome)
instead of returning normally with the default logger pointing at the
old sink. -/
theorem c10_init_panics (fl : Flags) (old : Logger) (e : Str)
    (connRes openRes : Except Str Sink) :
    (fl.logToSyslog ≠ [] →
      Init fl old (Except.error e) openRes = Except.error e) ∧
    (fl.logToSyslog = [] → fl.logFile ≠ [] →
      Init fl old connRes (Except.error e) = Except.error e) := by
  constructor
  · intro h
    simp [Init, NewSyslog, h]
  · intro h1 h2
    simp [Init, NewFile, h1, h2]

/-- Witness for c10_init_panics on concrete syslog and file flag
configurations. -/
theorem c10_init_panics_witness :
    Init FLsys L0 (Except.error "conn failed".toList) (Except.ok Sink.stderr) =
      Except.error "conn failed".toList ∧
    Init FLfile L0 (Except.ok Sink.stderr) (Except.error "open failed".toList) =
      Except.error "open failed".toList :=
  ⟨(c10_init_panics FLsys L0 "conn failed".toList
      (Except.error "conn failed".toList) (Except.ok Sink.stderr)).1 (by decide),
   (c10_init_panics FLfile L0 "open failed".toList
      (Except.ok Sink.stderr) (Except.error "open failed".toList)).2
      (by decide) (by decide)⟩

end GoLog
